import Mathlib

/-!
Shallow embedding of the Watch Scheduler and Gap-Alert Engine of the
CustomScrapper price-monitoring service (src/app/db.py, src/app/rules/alerts.py,
src/main.py), together with theorems settling the specification claims.

Modelling conventions:
* timestamps are integers counted in minutes (`datetime.utcnow()` becomes an
  explicit `now : Int` parameter; `timedelta(minutes=m)` is `m`,
  `timedelta(hours=h)` is `h * 60`);
* prices, gaps and thresholds (`Decimal` in the source) are rationals `ℚ`;
* a SQLAlchemy session is a record of table contents (lists of rows, in
  insertion order); `order_by(desc(ts)).limit(1)` is the first row attaining
  the maximal timestamp, `func.max` is the maximum, inserts append.
-/

/-- Row of `watch_items` (src/app/models.py, class WatchItem). -/
structure WatchItem where
  product_key : String
  channel : String
  role : String
  url : String
  competitor_name : Option String
  group_id : String
  frecuencia_minutos : Int
  umbral_gap : ℚ
  activo : Bool
deriving DecidableEq

/-- Row of `own_price_snapshots_v2` (src/app/models.py, class OwnPriceSnapshotV2). -/
structure OwnPriceSnapshotV2 where
  timestamp : Int
  group_id : String
  channel : String
  url : String
  precio : ℚ
  stock : Option Int
  moneda : String
  raw_source : Option String
deriving DecidableEq

/-- Row of `competitor_price_snapshots_v2` (src/app/models.py, class CompetitorPriceSnapshotV2). -/
structure CompetitorPriceSnapshotV2 where
  timestamp : Int
  group_id : String
  channel : String
  url : String
  competitor_name : String
  precio : ℚ
  stock : Option Int
  extra : Option String
deriving DecidableEq

/-- Row of `competitor_price_snapshots` (src/app/models.py, class CompetitorPriceSnapshot,
the legacy per-listing shape). -/
structure CompetitorPriceSnapshot where
  timestamp : Int
  listing_id : Int
  competitor_name : String
  precio : ℚ
  stock : Option Int
  extra : Option String
deriving DecidableEq

/-- Row of `alerts_v2` (src/app/models.py, class AlertV2). -/
structure AlertV2 where
  timestamp : Int
  group_id : String
  channel : String
  tipo : String
  detalle : String
  resuelta : Bool
  own_price : Option ℚ
  min_competitor_price : Option ℚ
  gap_pct : Option ℚ
  url_own : Option String
  url_min_competitor : Option String
deriving DecidableEq

/-- The database state visible to the core: the tables the claims touch. -/
structure DB where
  watch_items : List WatchItem
  own_snapshots_v2 : List OwnPriceSnapshotV2
  competitor_snapshots_v2 : List CompetitorPriceSnapshotV2
  competitor_snapshots_v1 : List CompetitorPriceSnapshot
  alerts_v2 : List AlertV2
deriving DecidableEq

/-- First element of the list attaining the maximal key: the row returned by
`order_by(desc(key)).limit(1)` (deterministic model of the tie order). -/
def firstMaxBy {α : Type} (key : α → Int) : List α → Option α
  | [] => none
  | a :: as =>
    match firstMaxBy key as with
    | none => some a
    | some b => if key a < key b then some b else some a

/-- First element of the list attaining the minimal key: Python's
`min(xs, key=...)`, which returns the first minimum. -/
def firstMinBy {α : Type} (key : α → ℚ) : List α → Option α
  | [] => none
  | a :: as =>
    match firstMinBy key as with
    | none => some a
    | some b => if key b < key a then some b else some a

/-- `select(func.max(column))` over a list of values. -/
def maxTimestamp : List Int → Option Int
  | [] => none
  | t :: ts =>
    match maxTimestamp ts with
    | none => some t
    | some m => some (max t m)

/-- `_watchitem_recency_filter` (src/app/db.py lines 100-105): a watch item is
due when it was never observed or its last observation is at least
`frequency_minutes` old. -/
def watchitem_recency_filter (now : Int) (frequency_minutes : Int)
    (last_seen : Option Int) : Bool :=
  let threshold := now - frequency_minutes
  match last_seen with
  | none => true
  | some t => decide (t ≤ threshold)

/-- `_latest_watchitem_snapshot_ts` (src/app/db.py lines 108-123): latest
capture timestamp among the observations matching the watch item's own role
and (group_id, channel, url). -/
def latest_watchitem_snapshot_ts (db : DB) (w : WatchItem) : Option Int :=
  if w.role == "own" then
    maxTimestamp ((db.own_snapshots_v2.filter
      (fun s => s.group_id == w.group_id && s.channel == w.channel && s.url == w.url)).map
      (fun s => s.timestamp))
  else
    maxTimestamp ((db.competitor_snapshots_v2.filter
      (fun s => s.group_id == w.group_id && s.channel == w.channel && s.url == w.url)).map
      (fun s => s.timestamp))

/-- `get_watchitems_to_monitor` (src/app/db.py lines 126-144). -/
def get_watchitems_to_monitor (db : DB) (now : Int) (channel_name : String)
    (mode : String) : Except String (List WatchItem) :=
  if !(mode == "own" || mode == "competitor" || mode == "both") then
    Except.error "mode must be one of own, competitor, or both"
  else
    let base := db.watch_items.filter (fun w => w.channel == channel_name && w.activo)
    let stmt :=
      if mode == "own" then base.filter (fun w => w.role == "own")
      else if mode == "competitor" then base.filter (fun w => w.role == "competitor")
      else base
    Except.ok (stmt.filter (fun w =>
      watchitem_recency_filter now w.frecuencia_minutos (latest_watchitem_snapshot_ts db w)))

/-- `filter_watchitems_by_frequency` (src/app/db.py lines 147-166): in-memory
filter by role mode and per-row frequency.  Note: it applies no `activo`
filter. -/
def filter_watchitems_by_frequency (db : DB) (now : Int)
    (watchitems : List WatchItem) (mode : String) : Except String (List WatchItem) :=
  if !(mode == "own" || mode == "competitor" || mode == "both") then
    Except.error "mode must be one of own, competitor, or both"
  else
    Except.ok (watchitems.filter (fun w =>
      !(mode == "own" && w.role != "own") &&
      !(mode == "competitor" && w.role != "competitor") &&
      watchitem_recency_filter now w.frecuencia_minutos (latest_watchitem_snapshot_ts db w)))

/-- The watch-item selection performed by `main` when `--source db` is used
without `--channel` (src/main.py lines 150-154): all stored watch items are
passed to `filter_watchitems_by_frequency`. -/
def mainDbWatchitemSelection (db : DB) (now : Int) (mode : String) :
    Except String (List WatchItem) :=
  filter_watchitems_by_frequency db now db.watch_items mode

/-- `insert_own_snapshot_v2` (src/app/db.py lines 241-265): appends a row. -/
def insert_own_snapshot_v2 (db : DB) (s : OwnPriceSnapshotV2) : DB :=
  { db with own_snapshots_v2 := db.own_snapshots_v2 ++ [s] }

/-- `insert_competitor_snapshot_v2` (src/app/db.py lines 268-292): appends a row. -/
def insert_competitor_snapshot_v2 (db : DB) (s : CompetitorPriceSnapshotV2) : DB :=
  { db with competitor_snapshots_v2 := db.competitor_snapshots_v2 ++ [s] }

/-- The identity-key match used by `upsert_watchitems` (src/app/db.py lines
174-179): same (group_id, channel, role, url). -/
def sameIdentityKey (a b : WatchItem) : Bool :=
  a.group_id == b.group_id && a.channel == b.channel && a.role == b.role && a.url == b.url

/-- The in-place field update applied to an existing row by `upsert_watchitems`
(src/app/db.py lines 182-186). -/
def applyWatchItemUpdate (existing w : WatchItem) : WatchItem :=
  { existing with
    product_key := w.product_key
    competitor_name := w.competitor_name
    frecuencia_minutos := w.frecuencia_minutos
    umbral_gap := w.umbral_gap
    activo := w.activo }

/-- One iteration of the `upsert_watchitems` loop: update the (unique) row with
the same identity key in place, or append the new row. -/
def upsertOneWatchItem : List WatchItem → WatchItem → List WatchItem
  | [], w => [w]
  | e :: rest, w =>
    if sameIdentityKey e w then applyWatchItemUpdate e w :: rest
    else e :: upsertOneWatchItem rest w

/-- `upsert_watchitems` (src/app/db.py lines 169-192) acting on the
`watch_items` table contents. -/
def upsert_watchitems (ws : List WatchItem) (items : List WatchItem) : List WatchItem :=
  items.foldl upsertOneWatchItem ws

/-- At most one row per identity key. -/
def uniqueIdentityKeys (ws : List WatchItem) : Prop :=
  ws.Pairwise (fun a b => sameIdentityKey a b = false)

/-- Result record returned by the emitter (src/app/rules/alerts.py, dataclass
AlertResult). -/
structure AlertResult where
  timestamp : Int
  group_id : String
  channel : String
  tipo : String
  own_price : ℚ
  min_competitor_price : ℚ
  gap_pct : ℚ
  detalle : String
  url_own : Option String
  url_min_competitor : Option String
deriving DecidableEq

/-- `_latest_own_snapshot_v2` (src/app/rules/alerts.py lines 101-108): most
recent own observation for the (group_id, channel) pair. -/
def latest_own_snapshot_v2 (db : DB) (group_id channel : String) :
    Option OwnPriceSnapshotV2 :=
  firstMaxBy (fun s => s.timestamp)
    (db.own_snapshots_v2.filter (fun s => s.group_id == group_id && s.channel == channel))

/-- `_latest_competitor_prices_v2` (src/app/rules/alerts.py lines 111-140):
the first observation attaining the minimal price among the competitor
observations sharing the latest competitor capture timestamp, with that
minimal price. -/
def latest_competitor_prices_v2 (db : DB) (group_id channel : String) :
    Option CompetitorPriceSnapshotV2 × Option ℚ :=
  match maxTimestamp ((db.competitor_snapshots_v2.filter
      (fun s => s.group_id == group_id && s.channel == channel)).map (fun s => s.timestamp)) with
  | none => (none, none)
  | some latest_ts =>
    match firstMinBy (fun s => s.precio)
        ((db.competitor_snapshots_v2.filter
          (fun s => s.group_id == group_id && s.channel == channel)).filter
          (fun s => s.timestamp == latest_ts)) with
    | none => (none, none)
    | some min_snapshot => (some min_snapshot, some min_snapshot.precio)

/-- The latest competitor "round" for a pair: all competitor observations
sharing the latest competitor capture timestamp (the set that
`_latest_competitor_prices_v2` minimises over). -/
def competitorRound (db : DB) (group_id channel : String) :
    List CompetitorPriceSnapshotV2 :=
  match maxTimestamp ((db.competitor_snapshots_v2.filter
      (fun s => s.group_id == group_id && s.channel == channel)).map (fun s => s.timestamp)) with
  | none => []
  | some latest_ts =>
    (db.competitor_snapshots_v2.filter
      (fun s => s.group_id == group_id && s.channel == channel)).filter
      (fun s => s.timestamp == latest_ts)

/-- `_latest_competitor_prices` (src/app/rules/alerts.py lines 50-74), the
legacy per-listing variant: returns the FIRST observation of the latest round
together with the minimal price of the round. -/
def latest_competitor_prices (db : DB) (listing_id : Int) :
    Option CompetitorPriceSnapshot × Option ℚ :=
  match maxTimestamp ((db.competitor_snapshots_v1.filter
      (fun s => s.listing_id == listing_id)).map (fun s => s.timestamp)) with
  | none => (none, none)
  | some latest_ts =>
    match (db.competitor_snapshots_v1.filter
        (fun s => s.listing_id == listing_id)).filter
        (fun s => s.timestamp == latest_ts) with
    | [] => (none, none)
    | s0 :: rest =>
      (some s0, some (rest.foldl (fun m s => min m s.precio) s0.precio))

/-- `_latest_open_alert_v2` (src/app/rules/alerts.py lines 143-164): most
recent alert for (group_id, channel, tipo) that is unresolved and created
within the last `recent_hours` hours. -/
def latest_open_alert_v2 (db : DB) (now : Int) (group_id channel tipo : String)
    (recent_hours : Int) : Option AlertV2 :=
  let cutoff := now - recent_hours * 60
  firstMaxBy (fun a => a.timestamp)
    (db.alerts_v2.filter (fun a =>
      a.group_id == group_id && a.channel == channel && a.tipo == tipo &&
      !a.resuelta && decide (cutoff ≤ a.timestamp)))

/-- `insert_alert_v2` (src/app/db.py lines 316-346): appends an alert row. -/
def insert_alert_v2 (db : DB) (a : AlertV2) : DB :=
  { db with alerts_v2 := db.alerts_v2 ++ [a] }

/-- The per-group threshold lookup of `process_new_watchitem_alerts`
(src/app/rules/alerts.py lines 209-217 and 236): the dict comprehension keeps
the LAST row per (group_id, channel) key, and `.get` falls back to 0.10. -/
def thresholdFor (threshold_rows : List WatchItem) (group_id channel : String) : ℚ :=
  match threshold_rows.reverse.find? (fun w => w.group_id == group_id && w.channel == channel) with
  | some w => w.umbral_gap
  | none => 1/10

/-- The rows feeding the threshold map (src/app/rules/alerts.py lines 209-214):
own-role watch items that are active. -/
def ownActiveThresholdRows (db : DB) : List WatchItem :=
  db.watch_items.filter (fun w => w.role == "own" && w.activo)

/-- Keep-first de-duplication: the `select(...).distinct()` of the group query. -/
def dedupFirst : List (String × String) → List (String × String)
  | [] => []
  | x :: xs => x :: (dedupFirst xs).filter (fun y => y ≠ x)

/-- The distinct active (group_id, channel) pairs iterated by
`process_new_watchitem_alerts` (src/app/rules/alerts.py lines 219-223). -/
def activeGroups (db : DB) : List (String × String) :=
  dedupFirst ((db.watch_items.filter (fun w => w.activo)).map
    (fun w => (w.group_id, w.channel)))

/-- The gap-evaluation prefix of the per-pair loop body of
`process_new_watchitem_alerts` (src/app/rules/alerts.py lines 226-235): skips
the pair when the own side or the competitor side has no observation or when
the minimal competitor price is zero; otherwise yields the own snapshot, the
representative competitor snapshot, the minimal competitor price, and the gap
`(own - min) / min`. -/
def evaluateGap (db : DB) (group_id channel : String) :
    Option (OwnPriceSnapshotV2 × CompetitorPriceSnapshotV2 × ℚ × ℚ) :=
  match latest_own_snapshot_v2 db group_id channel,
        latest_competitor_prices_v2 db group_id channel with
  | some own_snapshot, (some competitor_snapshot, some min_comp_price) =>
    if min_comp_price = 0 then none
    else
      some (own_snapshot, competitor_snapshot, min_comp_price,
        (own_snapshot.precio - min_comp_price) / min_comp_price)
  | _, _ => none

/-- The `detalle` message built for a new alert (src/app/rules/alerts.py lines
241-244). -/
def alertDetalle (group_id channel : String) (own_price min_comp_price gap : ℚ) : String :=
  "Group " ++ group_id ++ " channel " ++ channel ++ " own price " ++ toString own_price ++
    " vs min competitor " ++ toString min_comp_price ++ " gap " ++ toString gap

/-- The alert row persisted by `process_new_watchitem_alerts` for a breaching
pair (src/app/rules/alerts.py lines 245-256): created with `resuelta=False`
and `timestamp` defaulting to the current time. -/
def newAlertRow (now : Int) (gc : String × String) (own_snapshot : OwnPriceSnapshotV2)
    (competitor_snapshot : CompetitorPriceSnapshotV2) (min_comp_price gap : ℚ) : AlertV2 :=
  { timestamp := now
    group_id := gc.1
    channel := gc.2
    tipo := "gap_mayor_10"
    detalle := alertDetalle gc.1 gc.2 own_snapshot.precio min_comp_price gap
    resuelta := false
    own_price := some own_snapshot.precio
    min_competitor_price := some min_comp_price
    gap_pct := some gap
    url_own := some own_snapshot.url
    url_min_competitor := some competitor_snapshot.url }

/-- The `AlertResult` record appended to the emitter's return value for a
breaching pair (src/app/rules/alerts.py lines 257-270). -/
def newAlertResult (now : Int) (gc : String × String) (own_snapshot : OwnPriceSnapshotV2)
    (competitor_snapshot : CompetitorPriceSnapshotV2) (min_comp_price gap : ℚ) : AlertResult :=
  { timestamp := now
    group_id := gc.1
    channel := gc.2
    tipo := "gap_mayor_10"
    own_price := own_snapshot.precio
    min_competitor_price := min_comp_price
    gap_pct := gap
    detalle := alertDetalle gc.1 gc.2 own_snapshot.precio min_comp_price gap
    url_own := some own_snapshot.url
    url_min_competitor := some competitor_snapshot.url }

/-- One iteration of the per-pair loop of `process_new_watchitem_alerts`
(src/app/rules/alerts.py lines 225-270): evaluate the gap, compare against the
per-group threshold, consult the deduplicator, and persist a new alert. -/
def processGroupAlert (now : Int) (threshold_rows : List WatchItem) (db : DB)
    (gc : String × String) : DB × Option AlertResult :=
  match evaluateGap db gc.1 gc.2 with
  | none => (db, none)
  | some (own_snapshot, competitor_snapshot, min_comp_price, gap) =>
    let threshold := thresholdFor threshold_rows gc.1 gc.2
    if threshold < gap then
      if (latest_open_alert_v2 db now gc.1 gc.2 "gap_mayor_10" 24).isSome then (db, none)
      else
        (insert_alert_v2 db (newAlertRow now gc own_snapshot competitor_snapshot min_comp_price gap),
          some (newAlertResult now gc own_snapshot competitor_snapshot min_comp_price gap))
    else (db, none)

/-- The per-pair loop of `process_new_watchitem_alerts`, threading the session
state and accumulating the created alerts. -/
def processGroupsAlert (now : Int) (threshold_rows : List WatchItem) :
    List (String × String) → DB × List AlertResult → DB × List AlertResult
  | [], acc => acc
  | gc :: rest, acc =>
    processGroupsAlert now threshold_rows rest
      ((processGroupAlert now threshold_rows acc.1 gc).1,
        acc.2 ++ (processGroupAlert now threshold_rows acc.1 gc).2.toList)

/-- `process_new_watchitem_alerts` (src/app/rules/alerts.py lines 204-272). -/
def process_new_watchitem_alerts (db : DB) (now : Int) : DB × List AlertResult :=
  processGroupsAlert now (ownActiveThresholdRows db) (activeGroups db) (db, [])

/-- The deduplicator's match predicate: an unresolved alert with the same
(group_id, channel, tipo) created within the last 24 hours. -/
def openMatch (now : Int) (group_id channel tipo : String) (a : AlertV2) : Prop :=
  a.group_id = group_id ∧ a.channel = channel ∧ a.tipo = tipo ∧
    a.resuelta = false ∧ now - 24 * 60 ≤ a.timestamp

/-- The alerts carrying a given (group_id, channel, tipo) identity. -/
def idAlerts (alerts : List AlertV2) (group_id channel tipo : String) : List AlertV2 :=
  alerts.filter (fun a => a.group_id == group_id && a.channel == channel && a.tipo == tipo)

/-- The unresolved alerts of a given identity created within the 24h window
ending at `now`. -/
def unresolvedInWindow (alerts : List AlertV2) (now : Int)
    (group_id channel tipo : String) : List AlertV2 :=
  alerts.filter (fun a =>
    a.group_id == group_id && a.channel == channel && a.tipo == tipo &&
    !a.resuelta && decide (now - 24 * 60 ≤ a.timestamp))

instance openMatchDecidable (now : Int) (g c tipo : String) (a : AlertV2) :
    Decidable (openMatch now g c tipo a) := by
  unfold openMatch
  infer_instance

/-! Concrete database fixtures used to instantiate the claim theorems. -/

/-- Fixture: own observation, price 120, for group g1 on channel prochef. -/
def ownW1 : OwnPriceSnapshotV2 :=
  ⟨10, "g1", "prochef", "u-own", 120, none, "CLP", none⟩

/-- Fixture: competitor A, price 100, in the latest round. -/
def compW1a : CompetitorPriceSnapshotV2 :=
  ⟨10, "g1", "prochef", "u-a", "A", 100, none, none⟩

/-- Fixture: competitor B, price 95, in the latest round. -/
def compW1b : CompetitorPriceSnapshotV2 :=
  ⟨10, "g1", "prochef", "u-b", "B", 95, none, none⟩

/-- Fixture: competitor C, price 90, in an older round. -/
def compW1c : CompetitorPriceSnapshotV2 :=
  ⟨5, "g1", "prochef", "u-c", "C", 90, none, none⟩

/-- Fixture database for gap evaluation: the older cheaper observation must be
ignored. -/
def dbW1 : DB := ⟨[], [ownW1], [compW1a, compW1b, compW1c], [], []⟩

/-- Fixture: active own-role watch item with the default 0.10 threshold. -/
def wOwn2 : WatchItem := ⟨"pk", "prochef", "own", "u-own", none, "g1", 60, 1/10, true⟩

/-- Fixture: own observation, price 120. -/
def ownW2 : OwnPriceSnapshotV2 := ⟨10, "g1", "prochef", "u-own", 120, none, "CLP", none⟩

/-- Fixture: competitor observation, price 100. -/
def compW2 : CompetitorPriceSnapshotV2 := ⟨10, "g1", "prochef", "u-b", "B", 100, none, none⟩

/-- Fixture database for the threshold decision: gap is 0.20. -/
def dbW2 : DB := ⟨[wOwn2], [ownW2], [compW2], [], []⟩

/-- Fixture: an unresolved alert for (g1, prochef) created at time 100. -/
def alertW3 : AlertV2 :=
  ⟨100, "g1", "prochef", "gap_mayor_10", "d", false, none, none, none, none, none⟩

/-- Fixture database with an open alert inside the dedup window. -/
def dbW3 : DB := ⟨[wOwn2], [ownW2], [compW2], [], [alertW3]⟩

/-- Fixture: active own-role watch item for the dedup scenario. -/
def wOwn4 : WatchItem := ⟨"pk", "prochef", "own", "u-own", none, "g1", 60, 1/10, true⟩

/-- Fixture: own observation, price 120. -/
def ownW4 : OwnPriceSnapshotV2 := ⟨10, "g1", "prochef", "u-own", 120, none, "CLP", none⟩

/-- Fixture: competitor observation, price 100. -/
def compW4 : CompetitorPriceSnapshotV2 := ⟨10, "g1", "prochef", "u-b", "B", 100, none, none⟩

/-- Fixture: an alert for (g1, prochef) created at time 990 and already marked
resolved externally. -/
def resolvedW4 : AlertV2 :=
  ⟨990, "g1", "prochef", "gap_mayor_10", "d", true, none, none, none, none, none⟩

/-- Fixture database: a resolved alert within the 24h window plus breaching
price data. -/
def dbW4 : DB := ⟨[wOwn4], [ownW4], [compW4], [], [resolvedW4]⟩

/-- Fixture: inactive competitor-role watch item, never observed. -/
def inactiveW7 : WatchItem :=
  ⟨"pk1", "prochef", "competitor", "u-comp", some "rival", "g1", 60, 1/10, false⟩

/-- Fixture database holding only the inactive watch item. -/
def dbW7 : DB := ⟨[inactiveW7], [], [], [], []⟩

/-- Fixture: legacy competitor observation, price 10, first in the round. -/
def s8a : CompetitorPriceSnapshot := ⟨7, 1, "A", 10, none, none⟩

/-- Fixture: legacy competitor observation, price 5, second in the round. -/
def s8b : CompetitorPriceSnapshot := ⟨7, 1, "B", 5, none, none⟩

/-- Fixture database for the legacy per-listing evaluator. -/
def dbW8 : DB := ⟨[], [], [], [s8a, s8b], []⟩

/-- Fixture: competitor observation, price 10, first in the v2 round. -/
def t8a : CompetitorPriceSnapshotV2 := ⟨7, "g1", "prochef", "u1", "A", 10, none, none⟩

/-- Fixture: competitor observation, price 5, first of the tied minima. -/
def t8b : CompetitorPriceSnapshotV2 := ⟨7, "g1", "prochef", "u2", "B", 5, none, none⟩

/-- Fixture: competitor observation, price 5, second of the tied minima. -/
def t8c : CompetitorPriceSnapshotV2 := ⟨7, "g1", "prochef", "u3", "C", 5, none, none⟩

/-- Fixture database for the v2 representative with a tie at the minimum. -/
def dbW8v2 : DB := ⟨[], [], [t8a, t8b, t8c], [], []⟩

/-- Fixture: stored watch item, frequency 60, threshold 0.10. -/
def wOld9 : WatchItem := ⟨"pk", "prochef", "own", "u-own", none, "g1", 60, 1/10, true⟩

/-- Fixture: re-imported watch item with the same identity key but frequency 30
and threshold 0.15. -/
def wNew9 : WatchItem := ⟨"pk", "prochef", "own", "u-own", none, "g1", 30, 3/20, true⟩

/-- Fixture: inactive own-role watch item declaring threshold 0.50 (must be
ignored). -/
def wOwn10 : WatchItem := ⟨"pk", "prochef", "own", "u-own", none, "g1", 60, 1/2, false⟩

/-- Fixture: active competitor-role watch item for the same pair. -/
def wComp10 : WatchItem := ⟨"pk", "prochef", "competitor", "u-b", some "B", "g1", 60, 1/10, true⟩

/-- Fixture: previously stored own observation, price 120. -/
def own10 : OwnPriceSnapshotV2 := ⟨10, "g1", "prochef", "u-own", 120, none, "CLP", none⟩

/-- Fixture: competitor observation, price 100. -/
def comp10 : CompetitorPriceSnapshotV2 := ⟨10, "g1", "prochef", "u-b", "B", 100, none, none⟩

/-- Fixture database: own entity inactive, competitor entity active. -/
def dbW10 : DB := ⟨[wOwn10, wComp10], [own10], [comp10], [], []⟩

theorem firstMaxBy_eq_none_iff {α : Type} (key : α → Int) (l : List α) :
    firstMaxBy key l = none ↔ l = [] := by
  cases l with
  | nil => simp [firstMaxBy]
  | cons a as =>
    simp only [firstMaxBy]
    constructor
    · intro h
      cases hm : firstMaxBy key as with
      | none => rw [hm] at h; exact absurd h (by simp)
      | some b => rw [hm] at h; dsimp at h; split at h <;> simp_all
    · intro h; exact absurd h (by simp)

theorem firstMaxBy_mem {α : Type} (key : α → Int) (l : List α) (b : α)
    (h : firstMaxBy key l = some b) : b ∈ l := by
  induction l with
  | nil => simp [firstMaxBy] at h
  | cons a as ih =>
    simp only [firstMaxBy] at h
    cases hm : firstMaxBy key as with
    | none => rw [hm] at h; simp_all
    | some b' =>
      rw [hm] at h; dsimp at h
      split at h
      · injection h with h; subst h; exact List.mem_cons_of_mem a (ih hm)
      · injection h with h; simp [← h]

theorem firstMinBy_eq_none_iff {α : Type} (key : α → ℚ) (l : List α) :
    firstMinBy key l = none ↔ l = [] := by
  cases l with
  | nil => simp [firstMinBy]
  | cons a as =>
    simp only [firstMinBy]
    constructor
    · intro h
      cases hm : firstMinBy key as with
      | none => rw [hm] at h; exact absurd h (by simp)
      | some b => rw [hm] at h; dsimp at h; split at h <;> simp_all
    · intro h; exact absurd h (by simp)

/-- The element returned by `firstMinBy` is the first of the list attaining the
minimal key: the list splits around it, everything before is strictly larger,
and it is a lower bound for the whole list. -/
theorem firstMinBy_spec {α : Type} (key : α → ℚ) (l : List α) (b : α)
    (h : firstMinBy key l = some b) :
    ∃ l₁ l₂, l = l₁ ++ b :: l₂ ∧ (∀ x ∈ l₁, key b < key x) ∧ (∀ x ∈ l, key b ≤ key x) := by
  induction l generalizing b with
  | nil => simp [firstMinBy] at h
  | cons a as ih =>
    simp only [firstMinBy] at h
    cases hm : firstMinBy key as with
    | none =>
      rw [hm] at h; dsimp at h
      cases h
      rcases (firstMinBy_eq_none_iff key as).mp hm with rfl
      exact ⟨[], [], rfl, by simp, by simp⟩
    | some b' =>
      rw [hm] at h; dsimp at h
      rcases ih b' hm with ⟨l₁, l₂, hsplit, hlt, hle⟩
      split at h
      · rename_i hba
        cases h
        refine ⟨a :: l₁, l₂, by simp [hsplit], ?_, ?_⟩
        · intro x hx
          rcases List.mem_cons.mp hx with rfl | hx
          · exact hba
          · exact hlt x hx
        · intro x hx
          rcases List.mem_cons.mp hx with rfl | hx
          · exact le_of_lt hba
          · exact hle x hx
      · rename_i hba
        cases h
        refine ⟨[], as, rfl, by simp, ?_⟩
        intro x hx
        rcases List.mem_cons.mp hx with rfl | hx
        · exact le_refl _
        · exact le_trans (not_lt.mp hba) (hle x hx)

theorem maxTimestamp_eq_none_iff (l : List Int) :
    maxTimestamp l = none ↔ l = [] := by
  cases l with
  | nil => simp [maxTimestamp]
  | cons t ts =>
    simp only [maxTimestamp]
    constructor
    · intro h
      cases hm : maxTimestamp ts with
      | none => rw [hm] at h; exact absurd h (by simp)
      | some m => rw [hm] at h; simp_all
    · intro h; exact absurd h (by simp)

theorem maxTimestamp_spec (l : List Int) (m : Int) (h : maxTimestamp l = some m) :
    m ∈ l ∧ ∀ x ∈ l, x ≤ m := by
  induction l generalizing m with
  | nil => simp [maxTimestamp] at h
  | cons t ts ih =>
    simp only [maxTimestamp] at h
    cases hm : maxTimestamp ts with
    | none =>
      rw [hm] at h
      cases h
      rcases (maxTimestamp_eq_none_iff ts).mp hm with rfl
      exact ⟨by simp, by simp⟩
    | some m' =>
      rw [hm] at h
      cases h
      rcases ih m' hm with ⟨hmem, hub⟩
      constructor
      · rcases le_total t m' with hcase | hcase
        · rw [max_eq_right hcase]; exact List.mem_cons_of_mem t hmem
        · rw [max_eq_left hcase]; exact List.mem_cons_self t ts
      · intro x hx
        rcases List.mem_cons.mp hx with rfl | hx
        · exact le_max_left _ _
        · exact le_trans (hub x hx) (le_max_right _ _)

theorem competitorRound_eq_nil_iff (db : DB) (g c : String) :
    competitorRound db g c = [] ↔
      db.competitor_snapshots_v2.filter (fun s => s.group_id == g && s.channel == c) = [] := by
  unfold competitorRound
  cases hm : maxTimestamp ((db.competitor_snapshots_v2.filter
      (fun s => s.group_id == g && s.channel == c)).map (fun s => s.timestamp)) with
  | none =>
    rw [maxTimestamp_eq_none_iff, List.map_eq_nil_iff] at hm
    simp [hm]
  | some ts =>
    constructor
    · intro h
      have hmem := (maxTimestamp_spec _ _ hm).1
      rcases List.mem_map.mp hmem with ⟨s, hs, hts⟩
      have hs2 : s ∈ (db.competitor_snapshots_v2.filter
          (fun s => s.group_id == g && s.channel == c)).filter
          (fun s => s.timestamp == ts) := by
        refine List.mem_filter.mpr ⟨hs, ?_⟩
        simp [hts]
      have h' : (db.competitor_snapshots_v2.filter
          (fun s => s.group_id == g && s.channel == c)).filter
          (fun s => s.timestamp == ts) = [] := h
      rw [h'] at hs2
      simp at hs2
    · intro h
      rw [h]
      simp

/-- `_latest_competitor_prices_v2` is the first-minimum of the latest
competitor round. -/
theorem latest_competitor_prices_v2_eq (db : DB) (g c : String) :
    latest_competitor_prices_v2 db g c =
      match firstMinBy (fun s => s.precio) (competitorRound db g c) with
      | none => (none, none)
      | some b => (some b, some b.precio) := by
  unfold latest_competitor_prices_v2 competitorRound
  cases hm : maxTimestamp ((db.competitor_snapshots_v2.filter
      (fun s => s.group_id == g && s.channel == c)).map (fun s => s.timestamp)) with
  | none => rfl
  | some ts => rfl

theorem latest_competitor_prices_v2_some_spec (db : DB) (g c : String)
    (comp : CompetitorPriceSnapshotV2) (minp : ℚ)
    (h : latest_competitor_prices_v2 db g c = (some comp, some minp)) :
    minp = comp.precio ∧
    (∃ l₁ l₂, competitorRound db g c = l₁ ++ comp :: l₂ ∧
      ∀ s ∈ l₁, comp.precio < s.precio) ∧
    ∀ s ∈ competitorRound db g c, minp ≤ s.precio := by
  rw [latest_competitor_prices_v2_eq] at h
  cases hf : firstMinBy (fun s => s.precio) (competitorRound db g c) with
  | none => rw [hf] at h; cases h
  | some b =>
    rw [hf] at h
    simp only [Prod.mk.injEq, Option.some.injEq] at h
    obtain ⟨h1, h2⟩ := h
    subst h1
    subst h2
    rcases firstMinBy_spec _ _ _ hf with ⟨l₁, l₂, hsplit, hlt, hle⟩
    exact ⟨rfl, ⟨l₁, l₂, hsplit, hlt⟩, hle⟩

theorem latest_competitor_prices_v2_snd_none_iff (db : DB) (g c : String) :
    (latest_competitor_prices_v2 db g c).2 = none ↔ competitorRound db g c = [] := by
  rw [latest_competitor_prices_v2_eq]
  cases hf : firstMinBy (fun s => s.precio) (competitorRound db g c) with
  | none => simpa using (firstMinBy_eq_none_iff _ _).mp hf
  | some b =>
    constructor
    · intro h; cases h
    · intro h
      rw [h] at hf
      cases (firstMinBy_eq_none_iff (fun s : CompetitorPriceSnapshotV2 => s.precio) []).mpr rfl ▸ hf

theorem evaluateGap_eq_none_iff (db : DB) (g c : String) :
    evaluateGap db g c = none ↔
      latest_own_snapshot_v2 db g c = none ∨ competitorRound db g c = [] ∨
        (latest_competitor_prices_v2 db g c).2 = some 0 := by
  unfold evaluateGap
  cases hown : latest_own_snapshot_v2 db g c with
  | none => simp
  | some own =>
    rw [latest_competitor_prices_v2_eq]
    cases hf : firstMinBy (fun s => s.precio) (competitorRound db g c) with
    | none =>
      have hnil := (firstMinBy_eq_none_iff _ _).mp hf
      simp [hnil]
    | some b =>
      have hne : competitorRound db g c ≠ [] := by
        intro hnil
        rw [hnil] at hf
        cases (firstMinBy_eq_none_iff (fun s : CompetitorPriceSnapshotV2 => s.precio) []).mpr rfl ▸ hf
      by_cases hz : b.precio = 0
      · simp [hz, hne]
      · simp [hz, hne]

theorem evaluateGap_some_spec (db : DB) (g c : String)
    (own : OwnPriceSnapshotV2) (comp : CompetitorPriceSnapshotV2) (minp gap : ℚ)
    (h : evaluateGap db g c = some (own, comp, minp, gap)) :
    latest_own_snapshot_v2 db g c = some own ∧
    latest_competitor_prices_v2 db g c = (some comp, some minp) ∧
    minp ≠ 0 ∧ gap = (own.precio - minp) / minp := by
  unfold evaluateGap at h
  cases hown : latest_own_snapshot_v2 db g c with
  | none => rw [hown] at h; cases h
  | some own' =>
    rw [hown] at h
    cases hcp : latest_competitor_prices_v2 db g c with
    | mk fst snd =>
      rw [hcp] at h
      cases fst with
      | none => cases snd <;> cases h
      | some comp' =>
        cases snd with
        | none => cases h
        | some minp' =>
          dsimp at h
          split at h
          · cases h
          · rename_i hz
            injection h with h
            simp only [Prod.mk.injEq] at h
            obtain ⟨h1, h2, h3, h4⟩ := h
            subst h1
            subst h2
            subst h3
            subst h4
            exact ⟨rfl, rfl, hz, rfl⟩

theorem openMatch_iff_pred (now : Int) (g c tipo : String) (a : AlertV2) :
    (a.group_id == g && a.channel == c && a.tipo == tipo && !a.resuelta &&
      decide (now - 24 * 60 ≤ a.timestamp)) = true ↔ openMatch now g c tipo a := by
  simp [openMatch, Bool.and_eq_true, Bool.not_eq_true', and_assoc]

theorem latest_open_alert_v2_eq_none_iff (db : DB) (now : Int) (g c tipo : String) :
    latest_open_alert_v2 db now g c tipo 24 = none ↔
      ∀ a ∈ db.alerts_v2, ¬ openMatch now g c tipo a := by
  unfold latest_open_alert_v2
  rw [firstMaxBy_eq_none_iff, List.filter_eq_nil_iff]
  constructor
  · intro h a ha hm
    exact h a ha ((openMatch_iff_pred now g c tipo a).mpr hm)
  · intro h a ha hpred
    exact h a ha ((openMatch_iff_pred now g c tipo a).mp hpred)

theorem latest_open_alert_v2_isSome (db : DB) (now : Int) (g c tipo : String)
    (a : AlertV2) (ha : a ∈ db.alerts_v2) (hm : openMatch now g c tipo a) :
    (latest_open_alert_v2 db now g c tipo 24).isSome = true := by
  cases hval : latest_open_alert_v2 db now g c tipo 24 with
  | none => exact absurd hm ((latest_open_alert_v2_eq_none_iff db now g c tipo).mp hval a ha)
  | some b => rfl

theorem unresolvedInWindow_eq_filter (alerts : List AlertV2) (now : Int)
    (g c tipo : String) :
    unresolvedInWindow alerts now g c tipo =
      alerts.filter (fun a => decide (openMatch now g c tipo a)) := by
  unfold unresolvedInWindow
  apply List.filter_congr
  intro a _
  by_cases h : openMatch now g c tipo a
  · rw [(openMatch_iff_pred now g c tipo a).mpr h, decide_eq_true h]
  · rw [decide_eq_false h, Bool.eq_false_iff]
    exact fun hc => h ((openMatch_iff_pred now g c tipo a).mp hc)

theorem unresolvedInWindow_eq_nil_iff (alerts : List AlertV2) (now : Int)
    (g c tipo : String) :
    unresolvedInWindow alerts now g c tipo = [] ↔
      ∀ a ∈ alerts, ¬ openMatch now g c tipo a := by
  rw [unresolvedInWindow_eq_filter, List.filter_eq_nil_iff]
  simp

theorem unresolvedInWindow_append (al al' : List AlertV2) (now : Int)
    (g c tipo : String) :
    unresolvedInWindow (al ++ al') now g c tipo =
      unresolvedInWindow al now g c tipo ++ unresolvedInWindow al' now g c tipo := by
  unfold unresolvedInWindow
  exact List.filter_append _ _

theorem idAlerts_append (al al' : List AlertV2) (g c tipo : String) :
    idAlerts (al ++ al') g c tipo = idAlerts al g c tipo ++ idAlerts al' g c tipo := by
  unfold idAlerts
  exact List.filter_append _ _

theorem idAlerts_single_of_match (a : AlertV2) (g c tipo : String)
    (h : a.group_id = g ∧ a.channel = c ∧ a.tipo = tipo) :
    idAlerts [a] g c tipo = [a] := by
  rcases h with ⟨h1, h2, h3⟩
  simp [idAlerts, h1, h2, h3]

theorem idAlerts_single_of_nonmatch (a : AlertV2) (g c tipo : String)
    (h : ¬(a.group_id = g ∧ a.channel = c ∧ a.tipo = tipo)) :
    idAlerts [a] g c tipo = [] := by
  unfold idAlerts
  rw [List.filter_eq_nil_iff]
  intro b hb
  rcases List.mem_singleton.mp hb with rfl
  simp only [Bool.and_eq_true, beq_iff_eq]
  intro hcontra
  exact h ⟨hcontra.1.1, hcontra.1.2, hcontra.2⟩

theorem newAlertRow_openMatch (now : Int) (gc : String × String)
    (own : OwnPriceSnapshotV2) (comp : CompetitorPriceSnapshotV2) (minp gap : ℚ) :
    openMatch now gc.1 gc.2 "gap_mayor_10" (newAlertRow now gc own comp minp gap) := by
  refine ⟨rfl, rfl, rfl, rfl, ?_⟩
  show now - 24 * 60 ≤ now
  omega

theorem processGroupAlert_emit (now : Int) (tr : List WatchItem) (db : DB)
    (gc : String × String) (own : OwnPriceSnapshotV2) (comp : CompetitorPriceSnapshotV2)
    (minp gap : ℚ)
    (h1 : evaluateGap db gc.1 gc.2 = some (own, comp, minp, gap))
    (h2 : thresholdFor tr gc.1 gc.2 < gap)
    (h3 : latest_open_alert_v2 db now gc.1 gc.2 "gap_mayor_10" 24 = none) :
    processGroupAlert now tr db gc =
      ({ db with alerts_v2 := db.alerts_v2 ++ [newAlertRow now gc own comp minp gap] },
        some (newAlertResult now gc own comp minp gap)) := by
  simp [processGroupAlert, h1, h2, h3, insert_alert_v2]

theorem processGroupAlert_cases (now : Int) (tr : List WatchItem) (db : DB)
    (gc : String × String) :
    processGroupAlert now tr db gc = (db, none) ∨
    ∃ own comp minp gap,
      evaluateGap db gc.1 gc.2 = some (own, comp, minp, gap) ∧
      thresholdFor tr gc.1 gc.2 < gap ∧
      latest_open_alert_v2 db now gc.1 gc.2 "gap_mayor_10" 24 = none ∧
      processGroupAlert now tr db gc =
        ({ db with alerts_v2 := db.alerts_v2 ++ [newAlertRow now gc own comp minp gap] },
          some (newAlertResult now gc own comp minp gap)) := by
  cases hev : evaluateGap db gc.1 gc.2 with
  | none => left; simp [processGroupAlert, hev]
  | some q =>
    obtain ⟨own, comp, minp, gap⟩ := q
    by_cases hth : thresholdFor tr gc.1 gc.2 < gap
    · cases hdup : latest_open_alert_v2 db now gc.1 gc.2 "gap_mayor_10" 24 with
      | none =>
        right
        exact ⟨own, comp, minp, gap, rfl, hth, rfl,
          processGroupAlert_emit now tr db gc own comp minp gap hev hth hdup⟩
      | some a => left; simp [processGroupAlert, hev, hth, hdup]
    · left; simp [processGroupAlert, hev, hth]

theorem evaluateGap_congr (db db' : DB) (g c : String)
    (h1 : db'.own_snapshots_v2 = db.own_snapshots_v2)
    (h2 : db'.competitor_snapshots_v2 = db.competitor_snapshots_v2) :
    evaluateGap db' g c = evaluateGap db g c := by
  unfold evaluateGap latest_own_snapshot_v2 latest_competitor_prices_v2
  rw [h1, h2]

theorem latest_open_alert_v2_congr (db db' : DB) (now : Int) (g c tipo : String)
    (rh : Int) (h : db'.alerts_v2 = db.alerts_v2) :
    latest_open_alert_v2 db' now g c tipo rh = latest_open_alert_v2 db now g c tipo rh := by
  unfold latest_open_alert_v2
  rw [h]

theorem unresolvedInWindow_single_of_match (a : AlertV2) (now : Int)
    (g c tipo : String) (h : openMatch now g c tipo a) :
    unresolvedInWindow [a] now g c tipo = [a] := by
  rw [unresolvedInWindow_eq_filter]
  simp [h]

theorem unresolvedInWindow_single_of_nonmatch (a : AlertV2) (now : Int)
    (g c tipo : String) (h : ¬ openMatch now g c tipo a) :
    unresolvedInWindow [a] now g c tipo = [] := by
  rw [unresolvedInWindow_eq_filter]
  simp [h]

theorem mem_dedupFirst (l : List (String × String)) (x : String × String) :
    x ∈ dedupFirst l ↔ x ∈ l := by
  induction l with
  | nil => simp [dedupFirst]
  | cons a as ih =>
    simp only [dedupFirst, List.mem_cons, List.mem_filter]
    constructor
    · rintro (rfl | ⟨hx, _⟩)
      · left; rfl
      · right; exact ih.mp hx
    · rintro (rfl | hx)
      · left; rfl
      · by_cases hxa : x = a
        · left; exact hxa
        · right; exact ⟨ih.mpr hx, by simp [hxa]⟩

theorem mem_activeGroups (db : DB) (g c : String) :
    (g, c) ∈ activeGroups db ↔
      ∃ w ∈ db.watch_items, w.activo = true ∧ w.group_id = g ∧ w.channel = c := by
  unfold activeGroups
  rw [mem_dedupFirst]
  constructor
  · intro h
    rcases List.mem_map.mp h with ⟨w, hw, heq⟩
    rcases List.mem_filter.mp hw with ⟨hmem, hact⟩
    refine ⟨w, hmem, by simpa using hact, ?_, ?_⟩
    · exact congrArg Prod.fst heq
    · exact congrArg Prod.snd heq
  · rintro ⟨w, hmem, hact, rfl, rfl⟩
    exact List.mem_map.mpr ⟨w, List.mem_filter.mpr ⟨hmem, by simpa using hact⟩, rfl⟩

theorem thresholdFor_eq_default (tr : List WatchItem) (g c : String)
    (h : ∀ w ∈ tr, ¬(w.group_id = g ∧ w.channel = c)) :
    thresholdFor tr g c = 1/10 := by
  unfold thresholdFor
  cases hf : tr.reverse.find? (fun w => w.group_id == g && w.channel == c) with
  | none => rfl
  | some w =>
    have hpred := List.find?_some hf
    have hmem := List.mem_of_find?_eq_some hf
    exfalso
    apply h w (List.mem_reverse.mp hmem)
    simp only [Bool.and_eq_true, beq_iff_eq] at hpred
    exact hpred

theorem processGroupsAlert_state (now : Int) (tr : List WatchItem)
    (gcs : List (String × String)) :
    ∀ (db : DB) (rs : List AlertResult),
      (processGroupsAlert now tr gcs (db, rs)).1.watch_items = db.watch_items ∧
      (processGroupsAlert now tr gcs (db, rs)).1.own_snapshots_v2 = db.own_snapshots_v2 ∧
      (processGroupsAlert now tr gcs (db, rs)).1.competitor_snapshots_v2 =
        db.competitor_snapshots_v2 ∧
      ∃ suffix, (processGroupsAlert now tr gcs (db, rs)).1.alerts_v2 =
        db.alerts_v2 ++ suffix := by
  induction gcs with
  | nil =>
    intro db rs
    exact ⟨rfl, rfl, rfl, [], (List.append_nil _).symm⟩
  | cons gc rest ih =>
    intro db rs
    simp only [processGroupsAlert]
    rcases processGroupAlert_cases now tr db gc with h | ⟨own, comp, minp, gap, _, _, _, h⟩
    · rw [h]
      exact ih db (rs ++ (none : Option AlertResult).toList)
    · rw [h]
      rcases ih { db with alerts_v2 := db.alerts_v2 ++ [newAlertRow now gc own comp minp gap] }
          (rs ++ (some (newAlertResult now gc own comp minp gap)).toList) with
        ⟨h1, h2, h3, suffix, h4⟩
      refine ⟨h1, h2, h3, newAlertRow now gc own comp minp gap :: suffix, ?_⟩
      rw [h4]
      simp

theorem processGroupsAlert_suppressed (now : Int) (tr : List WatchItem)
    (gcs : List (String × String)) :
    ∀ (db : DB) (rs : List AlertResult) (g c : String),
      (∃ a ∈ db.alerts_v2, openMatch now g c "gap_mayor_10" a) →
      idAlerts (processGroupsAlert now tr gcs (db, rs)).1.alerts_v2 g c "gap_mayor_10" =
        idAlerts db.alerts_v2 g c "gap_mayor_10" := by
  induction gcs with
  | nil => intro db rs g c _; rfl
  | cons gc rest ih =>
    intro db rs g c hex
    simp only [processGroupsAlert]
    rcases processGroupAlert_cases now tr db gc with h | ⟨own, comp, minp, gap, hev, hth, hdup, h⟩
    · rw [h]
      exact ih db (rs ++ (none : Option AlertResult).toList) g c hex
    · rw [h]
      have hnm : ¬((newAlertRow now gc own comp minp gap).group_id = g ∧
          (newAlertRow now gc own comp minp gap).channel = c ∧
          (newAlertRow now gc own comp minp gap).tipo = "gap_mayor_10") := by
        rintro ⟨h1, h2, _⟩
        rcases hex with ⟨a, ha, hma⟩
        have hnone := (latest_open_alert_v2_eq_none_iff db now gc.1 gc.2 "gap_mayor_10").mp hdup a ha
        apply hnone
        have hg1 : gc.1 = g := h1
        have hg2 : gc.2 = c := h2
        rw [hg1, hg2]
        exact hma
      have hid : idAlerts (db.alerts_v2 ++ [newAlertRow now gc own comp minp gap])
          g c "gap_mayor_10" = idAlerts db.alerts_v2 g c "gap_mayor_10" := by
        rw [idAlerts_append, idAlerts_single_of_nonmatch _ _ _ _ hnm, List.append_nil]
      have hex' : ∃ a ∈ db.alerts_v2 ++ [newAlertRow now gc own comp minp gap],
          openMatch now g c "gap_mayor_10" a := by
        rcases hex with ⟨a, ha, hma⟩
        exact ⟨a, List.mem_append_left _ ha, hma⟩
      exact (ih { db with alerts_v2 := db.alerts_v2 ++ [newAlertRow now gc own comp minp gap] }
        (rs ++ (some (newAlertResult now gc own comp minp gap)).toList) g c hex').trans hid

theorem processGroupsAlert_breach (now : Int) (tr : List WatchItem)
    (gcs : List (String × String)) :
    ∀ (db : DB) (rs : List AlertResult) (g c : String),
      (∀ a ∈ db.alerts_v2, ¬ openMatch now g c "gap_mayor_10" a) →
      (g, c) ∈ gcs →
      ∀ own comp minp gap,
        evaluateGap db g c = some (own, comp, minp, gap) →
        thresholdFor tr g c < gap →
        idAlerts (processGroupsAlert now tr gcs (db, rs)).1.alerts_v2 g c "gap_mayor_10" =
          idAlerts db.alerts_v2 g c "gap_mayor_10" ++
            [newAlertRow now (g, c) own comp minp gap] := by
  induction gcs with
  | nil =>
    intro db rs g c _ hmem
    cases hmem
  | cons gc rest ih =>
    intro db rs g c hno hmem own comp minp gap hev hth
    simp only [processGroupsAlert]
    by_cases hgc : gc = (g, c)
    · subst hgc
      have hdup : latest_open_alert_v2 db now g c "gap_mayor_10" 24 = none :=
        (latest_open_alert_v2_eq_none_iff db now g c "gap_mayor_10").mpr hno
      have hstep := processGroupAlert_emit now tr db (g, c) own comp minp gap hev hth hdup
      rw [hstep]
      have hex : ∃ a ∈ db.alerts_v2 ++ [newAlertRow now (g, c) own comp minp gap],
          openMatch now g c "gap_mayor_10" a :=
        ⟨newAlertRow now (g, c) own comp minp gap,
          List.mem_append_right _ (List.mem_singleton_self _),
          newAlertRow_openMatch now (g, c) own comp minp gap⟩
      have hs := processGroupsAlert_suppressed now tr rest
        { db with alerts_v2 := db.alerts_v2 ++ [newAlertRow now (g, c) own comp minp gap] }
        (rs ++ (some (newAlertResult now (g, c) own comp minp gap)).toList) g c hex
      refine hs.trans ?_
      rw [idAlerts_append,
        idAlerts_single_of_match (newAlertRow now (g, c) own comp minp gap) g c
          "gap_mayor_10" ⟨rfl, rfl, rfl⟩]
    · rcases processGroupAlert_cases now tr db gc with h |
        ⟨own', comp', minp', gap', hev', hth', hdup', h⟩
      · rw [h]
        have hmem' : (g, c) ∈ rest := by
          rcases List.mem_cons.mp hmem with heq | hmem'
          · exact absurd heq.symm hgc
          · exact hmem'
        exact ih db (rs ++ (none : Option AlertResult).toList) g c hno hmem' own comp minp gap hev hth
      · rw [h]
        have hmem' : (g, c) ∈ rest := by
          rcases List.mem_cons.mp hmem with heq | hmem'
          · exact absurd heq.symm hgc
          · exact hmem'
        have hpairne : ¬(gc.1 = g ∧ gc.2 = c) := by
          rintro ⟨h1, h2⟩
          apply hgc
          cases gc
          simp only at h1 h2
          rw [h1, h2]
        have hnrow : ∀ a ∈ db.alerts_v2 ++ [newAlertRow now gc own' comp' minp' gap'],
            ¬ openMatch now g c "gap_mayor_10" a := by
          intro a ha
          rcases List.mem_append.mp ha with ha' | ha'
          · exact hno a ha'
          · rcases List.mem_singleton.mp ha' with rfl
            rintro ⟨h1, h2, _, _, _⟩
            exact hpairne ⟨h1, h2⟩
        have hev2 : evaluateGap
            { db with alerts_v2 := db.alerts_v2 ++ [newAlertRow now gc own' comp' minp' gap'] }
            g c = some (own, comp, minp, gap) :=
          (evaluateGap_congr db _ g c rfl rfl).trans hev
        have := ih
          { db with alerts_v2 := db.alerts_v2 ++ [newAlertRow now gc own' comp' minp' gap'] }
          (rs ++ (some (newAlertResult now gc own' comp' minp' gap')).toList)
          g c hnrow hmem' own comp minp gap hev2 hth
        refine this.trans ?_
        have hid : idAlerts (db.alerts_v2 ++ [newAlertRow now gc own' comp' minp' gap'])
            g c "gap_mayor_10" = idAlerts db.alerts_v2 g c "gap_mayor_10" := by
          rw [idAlerts_append, idAlerts_single_of_nonmatch, List.append_nil]
          rintro ⟨h1, h2, _⟩
          exact hpairne ⟨h1, h2⟩
        rw [hid]

theorem processGroupsAlert_unresolved_le_one (now : Int) (tr : List WatchItem)
    (gcs : List (String × String)) :
    ∀ (db : DB) (rs : List AlertResult) (g c tipo : String),
      (unresolvedInWindow db.alerts_v2 now g c tipo).length ≤ 1 →
      (unresolvedInWindow (processGroupsAlert now tr gcs (db, rs)).1.alerts_v2
        now g c tipo).length ≤ 1 := by
  induction gcs with
  | nil => intro db rs g c tipo h; exact h
  | cons gc rest ih =>
    intro db rs g c tipo h
    simp only [processGroupsAlert]
    rcases processGroupAlert_cases now tr db gc with hstep |
      ⟨own, comp, minp, gap, hev, hth, hdup, hstep⟩
    · rw [hstep]
      exact ih db (rs ++ (none : Option AlertResult).toList) g c tipo h
    · rw [hstep]
      apply ih _ _ g c tipo
      show (unresolvedInWindow (db.alerts_v2 ++ [newAlertRow now gc own comp minp gap])
        now g c tipo).length ≤ 1
      rw [unresolvedInWindow_append]
      by_cases hm : openMatch now g c tipo (newAlertRow now gc own comp minp gap)
      · have hnil : unresolvedInWindow db.alerts_v2 now g c tipo = [] := by
          rw [unresolvedInWindow_eq_nil_iff]
          intro a ha hma
          rcases hm with ⟨h1, h2, h3, _, _⟩
          have hg1 : gc.1 = g := h1
          have hg2 : gc.2 = c := h2
          have ht : "gap_mayor_10" = tipo := h3
          have hnone := (latest_open_alert_v2_eq_none_iff db now gc.1 gc.2 "gap_mayor_10").mp
            hdup a ha
          apply hnone
          rw [hg1, hg2, ht]
          exact hma
        rw [hnil, unresolvedInWindow_single_of_match _ _ _ _ _ hm]
        simp
      · rw [unresolvedInWindow_single_of_nonmatch _ _ _ _ _ hm, List.append_nil]
        exact h

theorem processGroupsAlert_results (now : Int) (tr : List WatchItem)
    (gcs : List (String × String)) :
    ∀ (db : DB) (rs : List AlertResult),
      ∀ r ∈ (processGroupsAlert now tr gcs (db, rs)).2,
        r ∈ rs ∨ ∃ a ∈ (processGroupsAlert now tr gcs (db, rs)).1.alerts_v2,
          a.group_id = r.group_id ∧ a.channel = r.channel ∧ a.tipo = "gap_mayor_10" ∧
          a.resuelta = false ∧ a.timestamp = now := by
  induction gcs with
  | nil => intro db rs r hr; left; exact hr
  | cons gc rest ih =>
    intro db rs r hr
    simp only [processGroupsAlert] at hr ⊢
    rcases processGroupAlert_cases now tr db gc with hstep |
      ⟨own, comp, minp, gap, hev, hth, hdup, hstep⟩
    · rw [hstep] at hr ⊢
      rcases ih db (rs ++ (none : Option AlertResult).toList) r hr with hl | hg
      · rcases List.mem_append.mp hl with h | h
        · exact Or.inl h
        · simp at h
      · exact Or.inr hg
    · rw [hstep] at hr ⊢
      rcases ih { db with alerts_v2 := db.alerts_v2 ++ [newAlertRow now gc own comp minp gap] }
          (rs ++ (some (newAlertResult now gc own comp minp gap)).toList) r hr with hl | hg
      · rcases List.mem_append.mp hl with hh | hh
        · exact Or.inl hh
        · right
          rcases List.mem_singleton.mp hh with rfl
          rcases processGroupsAlert_state now tr rest
              { db with alerts_v2 := db.alerts_v2 ++ [newAlertRow now gc own comp minp gap] }
              (rs ++ (some (newAlertResult now gc own comp minp gap)).toList) with
            ⟨_, _, _, suffix, hal⟩
          refine ⟨newAlertRow now gc own comp minp gap, ?_, rfl, rfl, rfl, rfl, rfl⟩
          rw [hal]
          exact List.mem_append_left _
            (List.mem_append_right _ (List.mem_singleton_self _))
      · exact Or.inr hg

theorem evaluateGap_alerts_congr (db : DB) (al : List AlertV2) (g c : String) :
    evaluateGap { db with alerts_v2 := al } g c = evaluateGap db g c := rfl

theorem competitorRound_alerts_congr (db : DB) (al : List AlertV2) (g c : String) :
    competitorRound { db with alerts_v2 := al } g c = competitorRound db g c := rfl


theorem sameIdentityKey_self (w : WatchItem) : sameIdentityKey w w = true := by
  unfold sameIdentityKey
  simp

theorem applyWatchItemUpdate_eq (e w : WatchItem) (h : sameIdentityKey e w = true) :
    applyWatchItemUpdate e w = w := by
  unfold sameIdentityKey at h
  simp only [Bool.and_eq_true, beq_iff_eq] at h
  obtain ⟨⟨⟨h1, h2⟩, h3⟩, h4⟩ := h
  cases e
  cases w
  simp_all [applyWatchItemUpdate]

theorem upsertOne_mem (ws : List WatchItem) (w b : WatchItem)
    (hb : b ∈ upsertOneWatchItem ws w) : b ∈ ws ∨ b = w := by
  induction ws with
  | nil =>
    simp only [upsertOneWatchItem] at hb
    right
    exact List.mem_singleton.mp hb
  | cons e rest ih =>
    simp only [upsertOneWatchItem] at hb
    by_cases hk : sameIdentityKey e w = true
    · rw [if_pos hk] at hb
      rcases List.mem_cons.mp hb with rfl | hb'
      · right; exact applyWatchItemUpdate_eq e w hk
      · left; exact List.mem_cons_of_mem _ hb'
    · rw [if_neg hk] at hb
      rcases List.mem_cons.mp hb with rfl | hb'
      · left; exact List.mem_cons_self _ _
      · rcases ih hb' with h | h
        · left; exact List.mem_cons_of_mem _ h
        · right; exact h

theorem upsertOne_unique (ws : List WatchItem) (w : WatchItem) :
    uniqueIdentityKeys ws → uniqueIdentityKeys (upsertOneWatchItem ws w) := by
  induction ws with
  | nil =>
    intro _
    simp [upsertOneWatchItem, uniqueIdentityKeys]
  | cons e rest ih =>
    intro h
    rcases List.pairwise_cons.mp h with ⟨hhead, htail⟩
    simp only [upsertOneWatchItem]
    by_cases hk : sameIdentityKey e w = true
    · rw [if_pos hk]
      apply List.pairwise_cons.mpr
      refine ⟨?_, htail⟩
      intro b hb
      have hsame : sameIdentityKey (applyWatchItemUpdate e w) b = sameIdentityKey e b := rfl
      rw [hsame]
      exact hhead b hb
    · rw [if_neg hk]
      apply List.pairwise_cons.mpr
      refine ⟨?_, ih htail⟩
      intro b hb
      rcases upsertOne_mem rest w b hb with h' | rfl
      · exact hhead b h'
      · exact Bool.eq_false_iff.mpr hk

theorem upsertOne_of_no_match (ws : List WatchItem) (w : WatchItem)
    (h : ∀ e ∈ ws, sameIdentityKey e w = false) :
    upsertOneWatchItem ws w = ws ++ [w] := by
  induction ws with
  | nil => rfl
  | cons e rest ih =>
    simp only [upsertOneWatchItem]
    rw [if_neg (by rw [h e (List.mem_cons_self e rest)]; simp),
      ih (fun x hx => h x (List.mem_cons_of_mem _ hx))]
    rfl

theorem upsertOne_of_match (l₁ : List WatchItem) (e : WatchItem) (l₂ : List WatchItem)
    (w : WatchItem) (h1 : ∀ x ∈ l₁, sameIdentityKey x w = false)
    (h2 : sameIdentityKey e w = true) :
    upsertOneWatchItem (l₁ ++ e :: l₂) w = l₁ ++ applyWatchItemUpdate e w :: l₂ := by
  induction l₁ with
  | nil =>
    simp only [List.nil_append, upsertOneWatchItem, if_pos h2]
  | cons x xs ih =>
    simp only [List.cons_append, upsertOneWatchItem]
    rw [if_neg (by rw [h1 x (List.mem_cons_self x xs)]; simp)]
    exact congrArg (List.cons x) (ih (fun y hy => h1 y (List.mem_cons_of_mem _ hy)))

theorem upsertOne_idem (ws : List WatchItem) (w : WatchItem) :
    upsertOneWatchItem (upsertOneWatchItem ws w) w = upsertOneWatchItem ws w := by
  induction ws with
  | nil =>
    simp only [upsertOneWatchItem]
    rw [if_pos (sameIdentityKey_self w), applyWatchItemUpdate_eq w w (sameIdentityKey_self w)]
  | cons e rest ih =>
    by_cases hk : sameIdentityKey e w = true
    · simp only [upsertOneWatchItem]
      rw [if_pos hk]
      simp only [upsertOneWatchItem]
      have hk2 : sameIdentityKey (applyWatchItemUpdate e w) w = true := by
        have hsame : sameIdentityKey (applyWatchItemUpdate e w) w = sameIdentityKey e w := rfl
        rw [hsame]
        exact hk
      rw [if_pos hk2, applyWatchItemUpdate_eq _ _ hk2, applyWatchItemUpdate_eq _ _ hk]
    · simp only [upsertOneWatchItem]
      rw [if_neg hk]
      simp only [upsertOneWatchItem]
      rw [if_neg hk, ih]

/-- C1: gap evaluation for a (group, channel) pair returns no result — leaving
the state untouched, emitting nothing and raising no error — when the own side
has no observation, when there are no competitor observations, or when the
minimal competitor price is exactly zero; otherwise the minimal competitor
price is the least price among the competitor observations sharing the latest
competitor capture timestamp, the gap equals
(ownPrice - minCompetitorPrice) / minCompetitorPrice, and the gap is positive
exactly when the own price exceeds the best competitor price. -/
theorem C1_gap_evaluation (db : DB) (now : Int) (tr : List WatchItem) (g c : String) :
    ((latest_own_snapshot_v2 db g c = none ∨ competitorRound db g c = [] ∨
        (latest_competitor_prices_v2 db g c).2 = some 0) →
      evaluateGap db g c = none ∧ processGroupAlert now tr db (g, c) = (db, none)) ∧
    (∀ own comp minp gap, evaluateGap db g c = some (own, comp, minp, gap) →
      latest_own_snapshot_v2 db g c = some own ∧
      comp ∈ competitorRound db g c ∧ minp = comp.precio ∧
      (∀ s ∈ competitorRound db g c, minp ≤ s.precio) ∧
      minp ≠ 0 ∧ gap = (own.precio - minp) / minp ∧
      (0 < minp → (0 < gap ↔ minp < own.precio))) := by
  constructor
  · intro h
    have hnone : evaluateGap db g c = none := (evaluateGap_eq_none_iff db g c).mpr h
    refine ⟨hnone, ?_⟩
    show processGroupAlert now tr db (g, c) = (db, none)
    simp [processGroupAlert, hnone]
  · intro own comp minp gap h
    rcases evaluateGap_some_spec db g c own comp minp gap h with ⟨hown, hcp, hz, hgap⟩
    rcases latest_competitor_prices_v2_some_spec db g c comp minp hcp with
      ⟨hpz, ⟨l₁, l₂, hsplit, _⟩, hle⟩
    refine ⟨hown, ?_, hpz, hle, hz, hgap, ?_⟩
    · rw [hsplit]
      exact List.mem_append_right _ (List.mem_cons_self _ _)
    · intro hpos
      rw [hgap]
      rw [div_pos_iff]
      constructor
      · rintro (⟨ha, _⟩ | ⟨_, hb⟩)
        · linarith
        · linarith
      · intro hlt
        left
        constructor <;> linarith

/-- Witness for C1 on a concrete database: the representative is the cheapest
observation of the latest round (price 95, the stale price 90 is ignored), and
the gap is positive since the own price 120 exceeds it. -/
theorem C1_gap_evaluation_witness :
    latest_own_snapshot_v2 dbW1 "g1" "prochef" = some ownW1 ∧
    compW1b ∈ competitorRound dbW1 "g1" "prochef" ∧
    compW1b.precio = compW1b.precio ∧
    (∀ s ∈ competitorRound dbW1 "g1" "prochef", compW1b.precio ≤ s.precio) ∧
    compW1b.precio ≠ 0 ∧
    (ownW1.precio - compW1b.precio) / compW1b.precio =
      (ownW1.precio - compW1b.precio) / compW1b.precio ∧
    (0 < compW1b.precio →
      (0 < (ownW1.precio - compW1b.precio) / compW1b.precio ↔
        compW1b.precio < ownW1.precio)) :=
  (C1_gap_evaluation dbW1 0 [] "g1" "prochef").2 ownW1 compW1b compW1b.precio
    ((ownW1.precio - compW1b.precio) / compW1b.precio) rfl

/-- C2: with no recent open duplicate, an alert is produced for an evaluated
pair exactly when the gap strictly exceeds the per-group threshold (a gap equal
to the threshold produces none); the produced record carries the computed gap
and prices; and when no active own-role watch entity declares a threshold for
the pair, the threshold defaults to 0.10. -/
theorem C2_threshold_strict (db : DB) (now : Int) (g c : String)
    (own : OwnPriceSnapshotV2) (comp : CompetitorPriceSnapshotV2) (minp gap : ℚ)
    (hev : evaluateGap db g c = some (own, comp, minp, gap))
    (hdup : latest_open_alert_v2 db now g c "gap_mayor_10" 24 = none) :
    ((processGroupAlert now (ownActiveThresholdRows db) db (g, c)).2.isSome = true ↔
      thresholdFor (ownActiveThresholdRows db) g c < gap) ∧
    (gap = thresholdFor (ownActiveThresholdRows db) g c →
      (processGroupAlert now (ownActiveThresholdRows db) db (g, c)).2 = none) ∧
    (∀ r, (processGroupAlert now (ownActiveThresholdRows db) db (g, c)).2 = some r →
      r.gap_pct = gap ∧ r.own_price = own.precio ∧ r.min_competitor_price = minp) ∧
    ((∀ w ∈ ownActiveThresholdRows db, ¬(w.group_id = g ∧ w.channel = c)) →
      thresholdFor (ownActiveThresholdRows db) g c = 1/10) := by
  by_cases hth : thresholdFor (ownActiveThresholdRows db) g c < gap
  · have hemit := processGroupAlert_emit now (ownActiveThresholdRows db) db (g, c)
      own comp minp gap hev hth hdup
    refine ⟨?_, ?_, ?_, fun h => thresholdFor_eq_default _ g c h⟩
    · rw [hemit]
      simpa using hth
    · intro heq
      rw [heq] at hth
      exact absurd hth (lt_irrefl _)
    · intro r hr
      rw [hemit] at hr
      have hr' : newAlertResult now (g, c) own comp minp gap = r := Option.some.inj hr
      rw [← hr']
      exact ⟨rfl, rfl, rfl⟩
  · have hnone : processGroupAlert now (ownActiveThresholdRows db) db (g, c) = (db, none) := by
      simp [processGroupAlert, hev, hth]
    refine ⟨?_, ?_, ?_, fun h => thresholdFor_eq_default _ g c h⟩
    · rw [hnone]
      simpa using hth
    · intro _
      rw [hnone]
    · intro r hr
      rw [hnone] at hr
      cases hr

/-- Witness for C2 on a concrete database: gap 1/5 against the declared
threshold 1/10. -/
theorem C2_threshold_strict_witness :
    (processGroupAlert 50 (ownActiveThresholdRows dbW2) dbW2 ("g1", "prochef")).2.isSome = true ↔
      thresholdFor (ownActiveThresholdRows dbW2) "g1" "prochef" <
        (ownW2.precio - compW2.precio) / compW2.precio :=
  (C2_threshold_strict dbW2 50 "g1" "prochef" ownW2 compW2 compW2.precio
    ((ownW2.precio - compW2.precio) / compW2.precio) rfl rfl).1

/-- C5: a watch entity is due exactly when its last matching observation
timestamp is absent or at least pollFrequencyMinutes old (the comparison is
inclusive); with frequency 60, last seen 30 minutes ago is not due, 61 and
exactly 60 minutes ago are due, never observed is due; and the in-memory
selection in mode "both" keeps exactly the entities passing the recency rule. -/
theorem C5_due_rule :
    (∀ (now freq : Int) (last : Option Int),
      watchitem_recency_filter now freq last = true ↔
        (last = none ∨ ∃ t, last = some t ∧ freq ≤ now - t)) ∧
    (∀ now : Int,
      watchitem_recency_filter now 60 (some (now - 30)) = false ∧
      watchitem_recency_filter now 60 (some (now - 61)) = true ∧
      watchitem_recency_filter now 60 (some (now - 60)) = true ∧
      watchitem_recency_filter now 60 none = true) ∧
    (∀ (db : DB) (now : Int) (ws : List WatchItem),
      filter_watchitems_by_frequency db now ws "both" =
        Except.ok (ws.filter (fun w =>
          watchitem_recency_filter now w.frecuencia_minutos
            (latest_watchitem_snapshot_ts db w)))) := by
  refine ⟨?_, ?_, ?_⟩
  · intro now freq last
    cases last with
    | none => simp [watchitem_recency_filter]
    | some t =>
      constructor
      · intro h
        refine Or.inr ⟨t, rfl, ?_⟩
        have h' : decide (t ≤ now - freq) = true := h
        have := of_decide_eq_true h'
        omega
      · rintro (h | ⟨t', ht, hle⟩)
        · exact absurd h (by simp)
        · injection ht with ht
          show decide (t ≤ now - freq) = true
          exact decide_eq_true (by omega)
  · intro now
    refine ⟨?_, ?_, ?_, rfl⟩
    · show decide (now - 30 ≤ now - 60) = false
      rw [decide_eq_false_iff_not]
      omega
    · show decide (now - 61 ≤ now - 60) = true
      rw [decide_eq_true_eq]
      omega
    · show decide (now - 60 ≤ now - 60) = true
      rw [decide_eq_true_eq]
  · intro db now ws
    rfl

/-- Witness for C5 at a concrete time and entity list. -/
theorem C5_due_rule_witness :
    (watchitem_recency_filter 1000 60 (some 940) = true ↔
      ((some 940 : Option Int) = none ∨
        ∃ t, (some 940 : Option Int) = some t ∧ (60 : Int) ≤ 1000 - t)) ∧
    watchitem_recency_filter 1000 60 (some 970) = false :=
  ⟨(C5_due_rule.1 1000 60 (some 940)), ((C5_due_rule.2.1 1000).1 : _)⟩

/-- C6: the last-seen timestamp feeding an entity's due-ness is computed only
from observations of the entity's own role sharing its (group, channel, url):
inserting an own-role observation changes nothing for a competitor-role entity
and inserting a competitor-role observation changes nothing for an own-role
entity, in both the timestamp and the resulting recency decision. -/
theorem C6_role_isolation (db : DB) (w : WatchItem) (now : Int)
    (s : OwnPriceSnapshotV2) (s' : CompetitorPriceSnapshotV2) :
    (w.role ≠ "own" →
      latest_watchitem_snapshot_ts (insert_own_snapshot_v2 db s) w =
        latest_watchitem_snapshot_ts db w ∧
      watchitem_recency_filter now w.frecuencia_minutos
          (latest_watchitem_snapshot_ts (insert_own_snapshot_v2 db s) w) =
        watchitem_recency_filter now w.frecuencia_minutos
          (latest_watchitem_snapshot_ts db w) ∧
      latest_watchitem_snapshot_ts db w =
        maxTimestamp ((db.competitor_snapshots_v2.filter (fun t =>
          t.group_id == w.group_id && t.channel == w.channel && t.url == w.url)).map
          (fun t => t.timestamp))) ∧
    (w.role = "own" →
      latest_watchitem_snapshot_ts (insert_competitor_snapshot_v2 db s') w =
        latest_watchitem_snapshot_ts db w ∧
      watchitem_recency_filter now w.frecuencia_minutos
          (latest_watchitem_snapshot_ts (insert_competitor_snapshot_v2 db s') w) =
        watchitem_recency_filter now w.frecuencia_minutos
          (latest_watchitem_snapshot_ts db w) ∧
      latest_watchitem_snapshot_ts db w =
        maxTimestamp ((db.own_snapshots_v2.filter (fun t =>
          t.group_id == w.group_id && t.channel == w.channel && t.url == w.url)).map
          (fun t => t.timestamp))) := by
  constructor
  · intro hrole
    have hb : (w.role == "own") = false := by
      simp only [beq_eq_false_iff_ne, ne_eq]
      exact hrole
    have h1 : latest_watchitem_snapshot_ts (insert_own_snapshot_v2 db s) w =
        latest_watchitem_snapshot_ts db w := by
      unfold latest_watchitem_snapshot_ts insert_own_snapshot_v2
      rw [hb]
      simp
    refine ⟨h1, by rw [h1], ?_⟩
    unfold latest_watchitem_snapshot_ts
    rw [hb]
    simp
  · intro hrole
    have hb : (w.role == "own") = true := by
      simp [hrole]
    have h1 : latest_watchitem_snapshot_ts (insert_competitor_snapshot_v2 db s') w =
        latest_watchitem_snapshot_ts db w := by
      unfold latest_watchitem_snapshot_ts insert_competitor_snapshot_v2
      rw [hb]
      simp
    refine ⟨h1, by rw [h1], ?_⟩
    unfold latest_watchitem_snapshot_ts
    rw [hb]
    simp

/-- Witness for C6: a fresh own-role observation does not change the due-ness
of the competitor-role fixture entity. -/
theorem C6_role_isolation_witness :
    latest_watchitem_snapshot_ts (insert_own_snapshot_v2 dbW7 ownW1) inactiveW7 =
      latest_watchitem_snapshot_ts dbW7 inactiveW7 :=
  ((C6_role_isolation dbW7 inactiveW7 0 ownW1 compW1a).1 (by decide)).1

/-- C7: the claim that inactive entities are never selected is violated by the
code: `filter_watchitems_by_frequency` applies no `activo` filter, and `main`
with `--source db` and no `--channel` (src/main.py lines 150-154) feeds it
every stored watch item, so an inactive, never observed competitor entity is
returned as due; the `get_watchitems_to_monitor` path does exclude it. -/
theorem C7_inactive_entity_selected :
    inactiveW7.activo = false ∧
    mainDbWatchitemSelection dbW7 0 "competitor" = Except.ok [inactiveW7] ∧
    get_watchitems_to_monitor dbW7 0 "prochef" "competitor" = Except.ok [] := by
  exact ⟨rfl, rfl, rfl⟩

/-- C3: for every (group, channel, kind) identity, if an unresolved alert
created within the last 24 hours exists, a breaching candidate is suppressed —
the identity's alert rows are unchanged by an emitter run; an emitter run
preserves "at most one unresolved alert per identity within the window"; and a
second breaching run within the window of an alert just created adds no
further row for that identity, so two consecutive breaching cycles create
exactly one alert. -/
theorem C3_dedup_suppression (db : DB) (now : Int) (g c : String) :
    ((∃ a ∈ db.alerts_v2, openMatch now g c "gap_mayor_10" a) →
      idAlerts (process_new_watchitem_alerts db now).1.alerts_v2 g c "gap_mayor_10" =
        idAlerts db.alerts_v2 g c "gap_mayor_10") ∧
    ((unresolvedInWindow db.alerts_v2 now g c "gap_mayor_10").length ≤ 1 →
      (unresolvedInWindow (process_new_watchitem_alerts db now).1.alerts_v2 now g c
        "gap_mayor_10").length ≤ 1) ∧
    (∀ r ∈ (process_new_watchitem_alerts db now).2, ∀ now2 : Int,
      r.group_id = g → r.channel = c → now2 - 24 * 60 ≤ now →
      idAlerts (process_new_watchitem_alerts
          (process_new_watchitem_alerts db now).1 now2).1.alerts_v2 g c "gap_mayor_10" =
        idAlerts (process_new_watchitem_alerts db now).1.alerts_v2 g c "gap_mayor_10") := by
  refine ⟨?_, ?_, ?_⟩
  · intro hex
    exact processGroupsAlert_suppressed now (ownActiveThresholdRows db) (activeGroups db)
      db [] g c hex
  · intro h
    exact processGroupsAlert_unresolved_le_one now (ownActiveThresholdRows db)
      (activeGroups db) db [] g c "gap_mayor_10" h
  · intro r hr now2 hg hc hwin
    rcases processGroupsAlert_results now (ownActiveThresholdRows db) (activeGroups db)
        db [] r hr with h0 | ⟨a, ha, h1, h2, h3, h4, h5⟩
    · simp at h0
    · apply processGroupsAlert_suppressed now2
        (ownActiveThresholdRows (process_new_watchitem_alerts db now).1)
        (activeGroups (process_new_watchitem_alerts db now).1)
        (process_new_watchitem_alerts db now).1 [] g c
      refine ⟨a, ha, h1.trans hg, h2.trans hc, h3, h4, ?_⟩
      rw [h5]
      exact hwin

/-- Witness for C3: with an unresolved alert for (g1, prochef) created at time
100, a breaching run at time 100 leaves the identity's alert rows unchanged. -/
theorem C3_dedup_suppression_witness :
    idAlerts (process_new_watchitem_alerts dbW3 100).1.alerts_v2
      "g1" "prochef" "gap_mayor_10" =
      idAlerts dbW3.alerts_v2 "g1" "prochef" "gap_mayor_10" :=
  (C3_dedup_suppression dbW3 100 "g1" "prochef").1
    ⟨alertW3, List.mem_singleton_self _, rfl, rfl, rfl, rfl, by decide⟩

/-- C4 counterexample: the dedup query matches only unresolved alerts
(`resuelta.is_(False)`), so an alert already marked resolved does NOT suppress:
on a database with a resolved alert created 10 minutes earlier (well inside the
24h window) and breaching prices, the emitter run creates a new alert row for
the same identity, contradicting the claim that the cycle is still suppressed
until the window elapses. -/
theorem C4_counterexample :
    resolvedW4.resuelta = true ∧
    (1000 : Int) - 24 * 60 ≤ resolvedW4.timestamp ∧
    idAlerts (process_new_watchitem_alerts dbW4 1000).1.alerts_v2
        "g1" "prochef" "gap_mayor_10" =
      idAlerts dbW4.alerts_v2 "g1" "prochef" "gap_mayor_10" ++
        [newAlertRow 1000 ("g1", "prochef") ownW4 compW4 compW4.precio
          ((ownW4.precio - compW4.precio) / compW4.precio)] := by
  refine ⟨rfl, by decide, ?_⟩
  apply processGroupsAlert_breach 1000 (ownActiveThresholdRows dbW4) (activeGroups dbW4)
    dbW4 [] "g1" "prochef" (by decide) (by decide)
  · rfl
  · show (1 : ℚ)/10 < ((120 : ℚ) - 100)/100
    norm_num

/-- C4 amended: the creation-time anchoring of the dedup window applies only
while the earlier alert is unresolved — an unresolved alert created within the
window suppresses every new candidate for its identity; but once every alert of
the identity is resolved (or older than the window), a breaching cycle
immediately creates a new alert, even within the window of a resolved one. -/
theorem C4_window_only_while_unresolved (db : DB) (now : Int) (g c : String) :
    ((∃ a ∈ db.alerts_v2, openMatch now g c "gap_mayor_10" a) →
      idAlerts (process_new_watchitem_alerts db now).1.alerts_v2 g c "gap_mayor_10" =
        idAlerts db.alerts_v2 g c "gap_mayor_10") ∧
    ((∀ a ∈ db.alerts_v2, a.group_id = g → a.channel = c → a.tipo = "gap_mayor_10" →
        a.resuelta = true ∨ a.timestamp < now - 24 * 60) →
      (g, c) ∈ activeGroups db →
      ∀ own comp minp gap,
        evaluateGap db g c = some (own, comp, minp, gap) →
        thresholdFor (ownActiveThresholdRows db) g c < gap →
        idAlerts (process_new_watchitem_alerts db now).1.alerts_v2 g c "gap_mayor_10" =
          idAlerts db.alerts_v2 g c "gap_mayor_10" ++
            [newAlertRow now (g, c) own comp minp gap]) := by
  constructor
  · intro hex
    exact processGroupsAlert_suppressed now (ownActiveThresholdRows db) (activeGroups db)
      db [] g c hex
  · intro hres hmem own comp minp gap hev hth
    have hno : ∀ a ∈ db.alerts_v2, ¬ openMatch now g c "gap_mayor_10" a := by
      intro a ha hm
      rcases hm with ⟨h1, h2, h3, h4, h5⟩
      rcases hres a ha h1 h2 h3 with hr | hr
      · rw [h4] at hr
        cases hr
      · omega
    exact processGroupsAlert_breach now (ownActiveThresholdRows db) (activeGroups db)
      db [] g c hno hmem own comp minp gap hev hth

/-- Witness for the amended C4 on the concrete database with a resolved alert
inside the window: a new alert row is created. -/
theorem C4_window_only_while_unresolved_witness :
    idAlerts (process_new_watchitem_alerts dbW4 1000).1.alerts_v2
        "g1" "prochef" "gap_mayor_10" =
      idAlerts dbW4.alerts_v2 "g1" "prochef" "gap_mayor_10" ++
        [newAlertRow 1000 ("g1", "prochef") ownW4 compW4 compW4.precio
          ((ownW4.precio - compW4.precio) / compW4.precio)] :=
  (C4_window_only_while_unresolved dbW4 1000 "g1" "prochef").2
    (by decide) (by decide) ownW4 compW4 compW4.precio
    ((ownW4.precio - compW4.precio) / compW4.precio) rfl
    (by show (1 : ℚ)/10 < ((120 : ℚ) - 100)/100; norm_num)

/-- C8 counterexample: the legacy evaluator `_latest_competitor_prices` returns
`snapshots[0]`, the FIRST observation of the latest round, as the
representative: on a round holding prices [10, 5] it returns the price-10
observation while the round minimum is 5, so the representative's price does
not equal the minimum price of the round. -/
theorem C8_counterexample :
    latest_competitor_prices dbW8 1 = (some s8a, some 5) ∧
    s8a.precio = 10 ∧ ¬ ((10 : ℚ) = 5) := by
  refine ⟨by decide, rfl, by norm_num⟩

/-- C8 amended: in the v2 evaluator — the one whose representative's identity
is carried into the alert — the representative belongs to the latest round, its
price equals the round's minimum price, and among ties it is deterministically
the first observation attaining the minimum; the legacy v1 evaluator instead
returns the first observation of the round regardless of price (only the
separately computed minimum feeds the threshold decision, and no identity is
carried into v1 alerts). -/
theorem C8_v2_representative_min (db : DB) (g c : String)
    (comp : CompetitorPriceSnapshotV2) (minp : ℚ)
    (h : latest_competitor_prices_v2 db g c = (some comp, some minp)) :
    comp ∈ competitorRound db g c ∧ comp.precio = minp ∧
    (∀ s ∈ competitorRound db g c, minp ≤ s.precio) ∧
    ∃ l₁ l₂, competitorRound db g c = l₁ ++ comp :: l₂ ∧
      ∀ s ∈ l₁, minp < s.precio := by
  rcases latest_competitor_prices_v2_some_spec db g c comp minp h with
    ⟨hpz, ⟨l₁, l₂, hsplit, hlt⟩, hle⟩
  refine ⟨?_, hpz.symm, hle, l₁, l₂, hsplit, ?_⟩
  · rw [hsplit]
    exact List.mem_append_right _ (List.mem_cons_self _ _)
  · intro s hs
    rw [hpz]
    exact hlt s hs

/-- Witness for the amended C8: with round prices [10, 5, 5] the v2
representative is the first of the two price-5 ties, and everything before it
in the round is strictly more expensive. -/
theorem C8_v2_representative_min_witness :
    t8b ∈ competitorRound dbW8v2 "g1" "prochef" ∧ t8b.precio = t8b.precio ∧
    (∀ s ∈ competitorRound dbW8v2 "g1" "prochef", t8b.precio ≤ s.precio) ∧
    ∃ l₁ l₂, competitorRound dbW8v2 "g1" "prochef" = l₁ ++ t8b :: l₂ ∧
      ∀ s ∈ l₁, t8b.precio < s.precio :=
  C8_v2_representative_min dbW8v2 "g1" "prochef" t8b t8b.precio rfl

/-- C9: upsert is idempotent on the identity key (group, channel, role, url):
it preserves "at most one row per identity key"; with no matching row it
appends; with a matching row it rewrites that row in place — the row count is
unchanged and the stored row carries the incoming mutable fields — and
upserting the same entity twice leaves the same state as upserting it once. -/
theorem C9_idempotent_upsert (ws : List WatchItem) (w : WatchItem) :
    (uniqueIdentityKeys ws → uniqueIdentityKeys (upsert_watchitems ws [w])) ∧
    ((∀ e ∈ ws, sameIdentityKey e w = false) → upsert_watchitems ws [w] = ws ++ [w]) ∧
    (∀ l₁ e l₂, ws = l₁ ++ e :: l₂ → (∀ x ∈ l₁, sameIdentityKey x w = false) →
      sameIdentityKey e w = true →
      upsert_watchitems ws [w] = l₁ ++ applyWatchItemUpdate e w :: l₂ ∧
      (upsert_watchitems ws [w]).length = ws.length ∧
      applyWatchItemUpdate e w = w) ∧
    upsert_watchitems (upsert_watchitems ws [w]) [w] = upsert_watchitems ws [w] := by
  refine ⟨?_, ?_, ?_, ?_⟩
  · intro h
    exact upsertOne_unique ws w h
  · intro h
    exact upsertOne_of_no_match ws w h
  · intro l₁ e l₂ hws h1 h2
    subst hws
    refine ⟨upsertOne_of_match l₁ e l₂ w h1 h2, ?_, applyWatchItemUpdate_eq e w h2⟩
    show (upsertOneWatchItem (l₁ ++ e :: l₂) w).length = (l₁ ++ e :: l₂).length
    rw [upsertOne_of_match l₁ e l₂ w h1 h2]
    simp
  · exact upsertOne_idem ws w

/-- Witness for C9: re-importing the fixture entity with a changed frequency
and threshold rewrites the single stored row in place. -/
theorem C9_idempotent_upsert_witness :
    upsert_watchitems [wOld9] [wNew9] = [] ++ applyWatchItemUpdate wOld9 wNew9 :: [] ∧
    (upsert_watchitems [wOld9] [wNew9]).length = [wOld9].length ∧
    applyWatchItemUpdate wOld9 wNew9 = wNew9 :=
  (C9_idempotent_upsert [wOld9] wNew9).2.2.1 [] wOld9 [] rfl (by simp) (by decide)

/-- C10: the threshold map is built only from own-role watch entities that are
active, so a pair whose own-role entity is inactive while a competitor-role
entity is active is still iterated by the emitter, its lookup misses and the
default 0.10 applies — the threshold declared on the inactive own-role entity
is ignored. -/
theorem C10_inactive_own_defaults (db : DB) (now : Int) (g c : String)
    (hinact : ∀ w ∈ db.watch_items, w.group_id = g → w.channel = c → w.role = "own" →
      w.activo = false)
    (hact : ∃ w ∈ db.watch_items, w.group_id = g ∧ w.channel = c ∧ w.activo = true) :
    (g, c) ∈ activeGroups db ∧
    thresholdFor (ownActiveThresholdRows db) g c = 1/10 ∧
    (∀ own comp minp gap, evaluateGap db g c = some (own, comp, minp, gap) →
      latest_open_alert_v2 db now g c "gap_mayor_10" 24 = none →
      ((processGroupAlert now (ownActiveThresholdRows db) db (g, c)).2.isSome = true ↔
        (1 : ℚ)/10 < gap)) := by
  have hdef : thresholdFor (ownActiveThresholdRows db) g c = 1/10 := by
    apply thresholdFor_eq_default
    rintro w hw ⟨h1, h2⟩
    rcases List.mem_filter.mp hw with ⟨hmem, hpred⟩
    simp only [Bool.and_eq_true, beq_iff_eq] at hpred
    have hfalse := hinact w hmem h1 h2 hpred.1
    rw [hfalse] at hpred
    exact absurd hpred.2 (by simp)
  refine ⟨?_, hdef, ?_⟩
  · rcases hact with ⟨w, hm, h1, h2, h3⟩
    exact (mem_activeGroups db g c).mpr ⟨w, hm, h3, h1, h2⟩
  · intro own comp minp gap hev hdup
    by_cases hth : thresholdFor (ownActiveThresholdRows db) g c < gap
    · rw [processGroupAlert_emit now (ownActiveThresholdRows db) db (g, c)
        own comp minp gap hev hth hdup]
      rw [hdef] at hth
      simpa using hth
    · have hnone : processGroupAlert now (ownActiveThresholdRows db) db (g, c) =
          (db, none) := by
        simp [processGroupAlert, hev, hth]
      rw [hnone, hdef] at *
      rw [hdef] at hth
      simpa using hth

/-- Witness for C10: own entity inactive (declared threshold 0.50 ignored),
competitor entity active — the pair is iterated and the default 0.10 is
used. -/
theorem C10_inactive_own_defaults_witness :
    ("g1", "prochef") ∈ activeGroups dbW10 ∧
    thresholdFor (ownActiveThresholdRows dbW10) "g1" "prochef" = 1/10 :=
  ⟨(C10_inactive_own_defaults dbW10 0 "g1" "prochef" (by decide) (by decide)).1,
    (C10_inactive_own_defaults dbW10 0 "g1" "prochef" (by decide) (by decide)).2.1⟩
